import Mathlib

/-!
Verification of the change-summary tool (src/changesummary.py) against its
natural-language specification.

The development shallowly embeds the Python source:

* JSON documents are the mutual inductives `JValue`/`JArr`/`JObj`
  (hand-rolled cons lists so that all recursion is structural and every
  definition evaluates inside the kernel).
* A pandas cell is `Cell`: `absent` models `NaN` (key missing on that side,
  or the whole file missing), `entry v` models a value taken from the
  document, where `v` may be `JValue.null` (Python `None`).
* `flatten` embeds `pd.json_normalize`: nested dicts are flattened into
  dot-joined paths; any non-dict value (scalars, `null`, arrays) is kept
  whole as the cell value.
* `getDiscoveryDifferences` embeds `_get_discovery_differences`;
  `detectDiscoveryChanges` embeds the concat + sort of
  `detect_discovery_changes`; `buildSummaryMessage` / the aggregate
  functions embed `_build_summary_message` / `_get_summary_and_write_to_disk`;
  `writeVerbose` embeds the file-writing loop of
  `_write_verbose_changes_to_disk` as a pure fold over an association list
  that models the written files; `changeSummaryInit` embeds
  `ChangeSummary.__init__`.
-/

/-! ## JSON documents -/

mutual
inductive JValue where
  | null : JValue
  | bool (b : Bool) : JValue
  | num (n : Int) : JValue
  | str (s : String) : JValue
  | arr (xs : JArr) : JValue
  | obj (kvs : JObj) : JValue
inductive JArr where
  | nil : JArr
  | cons (v : JValue) (rest : JArr) : JArr
inductive JObj where
  | nil : JObj
  | cons (k : String) (v : JValue) (rest : JObj) : JObj
end

mutual
/-- Python `==` on parsed JSON values — the `PyObject_RichCompareBool`
leg of the pandas elementwise comparison
`combined_docs['CurrentValue'] != combined_docs['NewValue']`
(src/changesummary.py:103-105), reached only when neither top-level cell
is null (see `cellNe` for the null short-circuit).  Python conflates
booleans with the integers 0/1 (`True == 1`), compares lists elementwise,
and inside a nested list `None` equals only `None`. -/
def pyEq : JValue → JValue → Bool
  | JValue.null, JValue.null => true
  | JValue.bool a, JValue.bool b => a == b
  | JValue.num a, JValue.num b => a == b
  | JValue.bool a, JValue.num b => (if a then (1 : Int) else 0) == b
  | JValue.num a, JValue.bool b => a == (if b then (1 : Int) else 0)
  | JValue.str a, JValue.str b => a == b
  | JValue.arr xs, JValue.arr ys => pyEqArr xs ys
  | JValue.obj g, JValue.obj h => pyEqObj g h
  | _, _ => false
def pyEqArr : JArr → JArr → Bool
  | JArr.nil, JArr.nil => true
  | JArr.cons v xs, JArr.cons w ys => pyEq v w && pyEqArr xs ys
  | _, _ => false
def pyEqObj : JObj → JObj → Bool
  | JObj.nil, JObj.nil => true
  | JObj.cons k v g, JObj.cons l w h => k == l && pyEq v w && pyEqObj g h
  | _, _ => false
end

/-! ## Cells of the combined dataframe -/

/-- One cell of the combined current/new dataframe built in
`_get_discovery_differences`.  `absent` is pandas `NaN` (the key is missing
on that side, or the whole file is missing); `entry v` is a value coming
from the flattened document (`v = JValue.null` models a JSON `null`, which
pandas stores as Python `None`). -/
inductive Cell where
  | absent : Cell
  | entry (v : JValue) : Cell

/-- Embeds `pandas.isnull` on a cell: `NaN` and `None` are null, every
other value (including empty strings, 0 and lists) is not
(src/changesummary.py:109-110). -/
def cellIsNull : Cell → Bool
  | Cell.absent => true
  | Cell.entry JValue.null => true
  | Cell.entry _ => false

/-- Embeds the pandas elementwise `!=` between the `CurrentValue` and
`NewValue` columns (src/changesummary.py:103-105).  Object-dtype Series
comparison goes through `libops.vec_compare`, which tests `checknull` on
each element BEFORE any Python comparison: whenever either side is null
(`NaN` or `None` alike), the `!=` verdict is `True` — so `NaN != NaN` and
even `None != None` are `True`.  Only when both cells hold non-null values
does Python `!=` (the negation of `pyEq`) decide. -/
def cellNe : Cell → Cell → Bool
  | Cell.absent, _ => true
  | _, Cell.absent => true
  | Cell.entry JValue.null, _ => true
  | _, Cell.entry JValue.null => true
  | Cell.entry a, Cell.entry b => !(pyEq a b)

/-! ## The flattener (`pd.json_normalize`, src/changesummary.py:62-77) -/

/-- Dot-joins path segments the way `pd.json_normalize` builds nested
column names: no separator before the first segment, `"."` between
segments (so a top-level empty key still yields `".child"` one level
down). -/
def dotJoinAux : List String → String
  | [] => ""
  | [s] => s
  | s :: rest => s ++ "." ++ dotJoinAux rest

mutual
/-- Embeds the recursive dict walk of `pd.json_normalize`
(`nested_to_record`): a member whose value is a dict is flattened
recursively with the member key appended to the path; any other value
(scalar, `null`, or a list — lists are NOT traversed by `json_normalize`)
becomes a single cell under the dot-joined path. -/
def flattenMember (segs : List String) (k : String) (v : JValue) : List (String × Cell) :=
  match v with
  | JValue.obj g => flattenObjAux (segs ++ [k]) g
  | w => [(dotJoinAux (segs ++ [k]), Cell.entry w)]
def flattenObjAux (segs : List String) : JObj → List (String × Cell)
  | JObj.nil => []
  | JObj.cons k v rest => flattenMember segs k v ++ flattenObjAux segs rest
end

/-- Embeds `pd.json_normalize(json.load(f))`: the flat mapping from dotted
key-path to cell value for one parsed document. -/
def flatten (doc : JObj) : List (String × Cell) :=
  flattenObjAux [] doc

/-- Keys (column labels) of a flattened document. -/
def flatKeys (fl : List (String × Cell)) : List String :=
  fl.map Prod.fst

/-- Looks a key up in a flattened document; a missing key is the `NaN`
cell, exactly as the column alignment of `pd.concat` fills missing
columns. -/
def lookupCell (fl : List (String × Cell)) (k : String) : Cell :=
  match fl.find? (fun kv => kv.1 == k) with
  | some kv => kv.2
  | none => Cell.absent

/-- The cell a given side of the comparison holds for key `k`: if the file
was missing on that side (`none`, see `_load_json_to_dataframe`,
src/changesummary.py:70-77) every key reads `NaN`. -/
def cellAt (doc : Option JObj) (k : String) : Cell :=
  match doc with
  | none => Cell.absent
  | some d => lookupCell (flatten d) k

/-! ## Change classification -/

/-- Embeds the `ChangeType(IntEnum)` of src/changesummary.py:13-17. -/
inductive ChangeType where
  | UNKNOWN : ChangeType
  | DELETED : ChangeType
  | ADDED : ChangeType
  | CHANGED : ChangeType
  deriving DecidableEq

/-- Numeric value of the `IntEnum` member (UNKNOWN=0, DELETED=1, ADDED=2,
CHANGED=3). -/
def ChangeType.val : ChangeType → Nat
  | ChangeType.UNKNOWN => 0
  | ChangeType.DELETED => 1
  | ChangeType.ADDED => 2
  | ChangeType.CHANGED => 3

/-- One row of the differences dataframe (`Name`, `Version`, `Key`,
`ChangeType`). -/
structure ChangeRecord where
  name : String
  version : String
  key : String
  type : ChangeType
  deriving DecidableEq

/-- Embeds the nested `np.where` of src/changesummary.py:112-116:
`DELETED` when the new value is null, else `ADDED` when the current value
is null, else `CHANGED`. -/
def classify (c n : Cell) : ChangeType :=
  if cellIsNull n then ChangeType.DELETED
  else if cellIsNull c then ChangeType.ADDED
  else ChangeType.CHANGED

/-! ## String helpers (kernel-evaluable counterparts of the Python string
operations used by the source) -/

/-- Splits a character list on a separator character, like Python
`str.split` with a one-character separator. -/
def splitOnChar (sep : Char) : List Char → List (List Char)
  | [] => [[]]
  | c :: rest =>
    let r := splitOnChar sep rest
    if c == sep then [] :: r
    else
      match r with
      | [] => [[c]]
      | g :: gs => (c :: g) :: gs

/-- Embeds `filename.split('.')` (src/changesummary.py:107). -/
def splitDots (s : String) : List String :=
  (splitOnChar (Char.ofNat 46) s.data).map (fun cs => String.mk cs)

/-- ASCII lowercasing, as performed by `case=False` of
`pandas.Series.str.contains`. -/
def lowerStr (s : String) : String :=
  String.mk (s.data.map Char.toLower)

/-- Whether `needle` occurs as a contiguous sublist of the second list. -/
def isInfixChars (needle : List Char) : List Char → Bool
  | [] => needle.isEmpty
  | c :: cs => needle.isPrefixOf (c :: cs) || isInfixChars needle cs

/-- Case-insensitive substring test: embeds one alternative of the regex
`'|'.join(keys)` matched with `case=False` (src/changesummary.py:118-120);
every entry of the ignore list is alternation-metacharacter-free, so the
regex match is a plain substring test. -/
def containsCI (hay pat : String) : Bool :=
  isInfixChars (lowerStr pat).data (lowerStr hay).data

/-- Embeds `_get_keys_to_ignore` (src/changesummary.py:144-158).  The
source has a missing comma between the `'title'` and `'url'` literals, so
Python string-literal concatenation merges them into the single entry
`"titleurl"`; the `++` below reproduces that defect. -/
def keysToIgnore : List String :=
  ["description", "documentation", "enum", "etag", "revision", "title" ++ "url", "rootUrl"]

/-- Whether a key-path is dropped by the ignore filter
(src/changesummary.py:118-120). -/
def ignoredKey (k : String) : Bool :=
  keysToIgnore.any (fun pat => containsCI k pat)

/-! ## The per-file diff (`_get_discovery_differences`,
src/changesummary.py:79-122) -/

/-- Key list (column labels) of the side, empty when the file was
missing. -/
def sideKeys (doc : Option JObj) : List String :=
  match doc with
  | none => []
  | some d => flatKeys (flatten d)

/-- Row labels of the transposed `pd.concat` frame: the union of the two
documents' flattened keys, current side first, then the new side's keys
not already present. -/
def unionKeysOf (currentDoc newDoc : Option JObj) : List String :=
  sideKeys currentDoc ++ (sideKeys newDoc).filter (fun k => !((sideKeys currentDoc).contains k))

/-- The row emitted for key `k` — `some` exactly when the two cells differ
under the pandas `!=` filter of src/changesummary.py:103-105, classified
by the nested `np.where` of src/changesummary.py:112-116. -/
def diffRow (currentDoc newDoc : Option JObj) (nm ver k : String) : Option ChangeRecord :=
  if cellNe (cellAt currentDoc k) (cellAt newDoc k) then
    some { name := nm, version := ver, key := k,
           type := classify (cellAt currentDoc k) (cellAt newDoc k) }
  else none

/-- The non-error body of `_get_discovery_differences`: a filename with
fewer than two dot-separated segments makes the two-column assignment
`docs_diff[['Name', 'Version']] = filename.split('.')[0:2]` raise a
length-mismatch `ValueError`; otherwise the key union is scanned, rows are
built for differing cells and rows whose key matches the ignore list are
dropped (src/changesummary.py:103-122). -/
def diffRows (currentDoc newDoc : Option JObj) (filename : String) :
    Except String (List ChangeRecord) :=
  if (splitDots filename).length < 2 then Except.error "Columns must be same length as key"
  else
    Except.ok
      (((unionKeysOf currentDoc newDoc).filterMap
          (diffRow currentDoc newDoc ((splitDots filename).getD 0 "")
            ((splitDots filename).getD 1 ""))).filter
        (fun r => !(ignoredKey r.key)))

/-- Embeds `_get_discovery_differences` for one filename, taking the two
parsed documents (`none` when `_load_json_to_dataframe` found no file).
With both sides missing, `pd.concat([None, None], ...)` raises
`ValueError("All objects passed were None")` before anything else
happens; otherwise the diff body `diffRows` runs. -/
def getDiscoveryDifferences (currentDoc newDoc : Option JObj) (filename : String) :
    Except String (List ChangeRecord) :=
  match currentDoc, newDoc with
  | none, none => Except.error "All objects passed were None"
  | _, _ => diffRows currentDoc newDoc filename

/-! ## Ordering of the concatenated result (`detect_discovery_changes`,
src/changesummary.py:243-258) -/

/-- Three-way lexicographic comparison of character lists by code point —
Python string comparison, which `DataFrame.sort_values` uses on the string
columns. -/
def charListCmp : List Char → List Char → Ordering
  | [], [] => Ordering.eq
  | [], _ :: _ => Ordering.lt
  | _ :: _, [] => Ordering.gt
  | a :: as, b :: bs =>
    if a < b then Ordering.lt
    else if b < a then Ordering.gt
    else charListCmp as bs

/-- Three-way comparison of strings by code point. -/
def strCmp (a b : String) : Ordering :=
  charListCmp a.data b.data

/-- Three-way comparison of naturals. -/
def natCmp (a b : Nat) : Ordering :=
  if a < b then Ordering.lt
  else if b < a then Ordering.gt
  else Ordering.eq

/-- The sort key of `result.sort_values(by=['Name', 'Version',
'ChangeType', 'Key'], ascending=True)`: lexicographic on the four columns,
strings by code point and `ChangeType` by its numeric `IntEnum` value. -/
def recordCmp (a b : ChangeRecord) : Ordering :=
  (strCmp a.name b.name).then
    ((strCmp a.version b.version).then
      ((natCmp a.type.val b.type.val).then (strCmp a.key b.key)))

/-- Non-strict row ordering induced by `recordCmp`. -/
def recordLe (a b : ChangeRecord) : Prop :=
  recordCmp a b ≠ Ordering.gt

instance : DecidableRel recordLe := fun a b => by
  unfold recordLe; infer_instance

/-- Embeds the record pipeline of `detect_discovery_changes`
(src/changesummary.py:243-258): every file of the list is diffed (an
exception in any worker propagates out of `pool.map`), the per-file row
sets are concatenated in file order, and the result is sorted ascending by
(Name, Version, ChangeType, Key). -/
def detectDiscoveryChanges (loadCur loadNew : String → Option JObj) (files : List String) :
    Except String (List ChangeRecord) :=
  match files.mapM (fun f => getDiscoveryDifferences (loadCur f) (loadNew f) f) with
  | Except.error e => Except.error e
  | Except.ok rss => Except.ok (List.insertionSort recordLe rss.flatten)

/-! ## Summary aggregation (`_build_summary_message`,
`_get_summary_and_write_to_disk`, src/changesummary.py:124-191) -/

/-- Embeds `_build_summary_message` (src/changesummary.py:124-142): the
format string `'{0}({1}){2}: update the api\n'` applied to the api name,
the commit type and the breaking-change marker. -/
def buildSummaryMessage (apiName : String) (isFeat isBreaking : Bool) : String :=
  apiName ++ "(" ++ (if isFeat then "feat" else "fix") ++ ")" ++
    (if isBreaking then "!" else "") ++ ": update the api\n"

/-- Embeds `IsFeatureAggregate` (src/changesummary.py:170-178): within the
rows of one `Name` group, whether any row is `DELETED` or `ADDED`
(`np.where(cond, True, np.nan)` followed by `groupby('Name').transform(any)`,
which skips the `NaN`s). -/
def isFeatureAggregate (rows : List ChangeRecord) (family : String) : Bool :=
  (rows.filter (fun r => r.name == family)).any
    (fun r => r.type == ChangeType.DELETED || r.type == ChangeType.ADDED)

/-- Embeds `IsBreakingAggregate` (src/changesummary.py:174-181): whether
any row of the `Name` group is `DELETED`. -/
def isBreakingAggregate (rows : List ChangeRecord) (family : String) : Bool :=
  (rows.filter (fun r => r.name == family)).any (fun r => r.type == ChangeType.DELETED)

/-- The `Summary` column value every row of a family receives
(src/changesummary.py:183-186). -/
def familySummary (rows : List ChangeRecord) (family : String) : String :=
  buildSummaryMessage family (isFeatureAggregate rows family) (isBreakingAggregate rows family)

/-! ## Verbose files (`_write_verbose_changes_to_disk`,
src/changesummary.py:193-241) -/

/-- Updates (or creates) one filename in the modelled file system. -/
def setFile (fs : List (String × String)) (fn content : String) : List (String × String) :=
  match fs with
  | [] => [(fn, content)]
  | (n, c) :: rest =>
    if n == fn then (n, content) :: rest else (n, c) :: setFile rest fn content

/-- Reads one filename from the modelled file system. -/
def getFile (fs : List (String × String)) (fn : String) : Option String :=
  (fs.find? (fun kv => kv.1 == fn)).map (fun kv => kv.2)

/-- Reads one filename, defaulting to the empty string. -/
def getFileD (fs : List (String × String)) (fn : String) : String :=
  match fs.find? (fun kv => kv.1 == fn) with
  | some kv => kv.2
  | none => ""

/-- Loop state of `_write_verbose_changes_to_disk`: the files written so
far, the currently open file (`f`), the pending `verbose_changes` buffer
and the three `last*` cursors. -/
structure VState where
  files : List (String × String)
  openF : Option String
  buf : List String
  lastApi : String
  lastVersion : String
  lastType : ChangeType

/-- Subsection label for a change-type group
(src/changesummary.py:232-238); the `else` branch covers `CHANGED`. -/
def typeLabel (t : ChangeType) : String :=
  if t == ChangeType.DELETED then "\nThe following keys were deleted:\n"
  else if t == ChangeType.ADDED then "\nThe following keys were added:\n"
  else "\nThe following keys were changed:\n"

/-- One iteration of the `for name, group in change_type_groups` loop
(src/changesummary.py:213-241).  On a new (api, version) pair the pending
buffer is flushed to the previously open file, which is then closed, and
`<api>.verbose` is opened with mode `"w"` — truncating it if it already
exists.  Bullets are appended (inside the `currentType != lastType`
branch, as in the source) together with the subsection label. -/
def vStep (summaryOf : String → String) (st : VState) (grp : List ChangeRecord) : VState :=
  match grp with
  | [] => st
  | g :: _ =>
    let st1 :=
      if st.lastApi != g.name || st.lastVersion != g.version then
        let files1 :=
          match st.openF with
          | some fn => setFile st.files fn (getFileD st.files fn ++ String.join st.buf)
          | none => st.files
        let fn := g.name ++ ".verbose"
        { files := setFile files1 fn "",
          openF := some fn,
          buf := [summaryOf g.name, "\n\n#### " ++ g.name ++ ":" ++ g.version ++ "\n\n"],
          lastApi := g.name,
          lastVersion := g.version,
          lastType := ChangeType.UNKNOWN }
      else st
    if g.type != st1.lastType then
      { st1 with
        buf := st1.buf ++ [typeLabel g.type] ++ grp.map (fun r => "- " ++ r.key ++ "\n"),
        lastType := g.type }
    else st1

/-- Embeds `_write_verbose_changes_to_disk` on the sorted record list:
pandas `groupby(['Name', 'Version', 'ChangeType'])` iterates the groups in
sorted key order, which on the already-sorted rows is exactly the list of
maximal runs of equal (Name, Version, ChangeType).  The fold returns the
modelled file system; note that the buffer still pending when the loop
ends is never written (the source neither flushes nor writes it), so the
file opened for the last group stays empty. -/
def writeVerbose (summaryOf : String → String) (rows : List ChangeRecord) :
    List (String × String) :=
  (List.foldl (vStep summaryOf)
    { files := [], openF := none, buf := [], lastApi := "", lastVersion := "",
      lastType := ChangeType.UNKNOWN }
    (rows.splitBy (fun a b => a.name == b.name && a.version == b.version && a.type == b.type))).files

/-! ## Construction (`ChangeSummary.__init__`, src/changesummary.py:33-50) -/

/-- Embeds `ChangeSummary.__init__`: the constructor raises
`FileListCannotBeEmpty` only when `file_list is None`; afterwards the two
artifact directories are checked for existence.  An empty (but non-None)
list passes the check. -/
def changeSummaryInit (newDirExists currentDirExists : Bool) (fileList : Option (List String)) :
    Except String (List String) :=
  match fileList with
  | none => Except.error "file_list should not be empty"
  | some l =>
    if !newDirExists then Except.error "Artifacts directory does not  exist"
    else if !currentDirExists then Except.error "Artifacts directory does not  exist"
    else Except.ok l

/-! ## Spec-side flattener (for the refinement statement of claim C9) -/

mutual
/-- Leaves of a document as the (amended) specification describes them:
every object member appends its key as a path segment; any non-object
value — scalars, `null` and arrays alike — is a leaf recorded whole under
the accumulated segment list.  Stated over raw segment lists so that the
dot-joining of `flatten` is a proved correspondence, not shared code. -/
def specLeavesVal (segs : List String) (v : JValue) : List (List String × JValue) :=
  match v with
  | JValue.obj g => specLeavesObj segs g
  | w => [(segs, w)]
def specLeavesObj (segs : List String) : JObj → List (List String × JValue)
  | JObj.nil => []
  | JObj.cons k v rest => specLeavesVal (segs ++ [k]) v ++ specLeavesObj segs rest
end

/-! ## Concrete documents and record lists used by witnesses and
counterexamples -/

/-- The document `{"x": 1}` of the spec's missing-file test case. -/
def docX1 : JObj := JObj.cons "x" (JValue.num 1) JObj.nil

/-- The document `{"k": null}`. -/
def docKNull : JObj := JObj.cons "k" JValue.null JObj.nil

/-- The document `{"k": 1}`. -/
def docK1 : JObj := JObj.cons "k" (JValue.num 1) JObj.nil

/-- The document `{"a": [1, 2]}`. -/
def docArr : JObj :=
  JObj.cons "a" (JValue.arr (JArr.cons (JValue.num 1) (JArr.cons (JValue.num 2) JArr.nil))) JObj.nil

/-- The document `{"etag": 1, "title": 1}`. -/
def docIgnoreCur : JObj :=
  JObj.cons "etag" (JValue.num 1) (JObj.cons "title" (JValue.num 1) JObj.nil)

/-- The document `{"etag": 2, "title": 2}`. -/
def docIgnoreNew : JObj :=
  JObj.cons "etag" (JValue.num 2) (JObj.cons "title" (JValue.num 2) JObj.nil)

/-- The single record the `docIgnoreCur` vs `docIgnoreNew` comparison
emits. -/
def recTitleChanged : ChangeRecord :=
  { name := "foo", version := "v1", key := "title", type := ChangeType.CHANGED }

/-- A single deleted-key record for family `foo`. -/
def recBDeleted : ChangeRecord :=
  { name := "foo", version := "v1", key := "b", type := ChangeType.DELETED }

/-- Two sorted records in two families; `zebra` sorts last. -/
def rowsTwoFamilies : List ChangeRecord :=
  [{ name := "apple", version := "v1", key := "k1", type := ChangeType.ADDED },
   { name := "zebra", version := "v1", key := "k2", type := ChangeType.ADDED }]

/-- Three sorted records: family `apple` spans two versions, `zebra` sorts
last. -/
def rowsMultiVersion : List ChangeRecord :=
  [{ name := "apple", version := "v1", key := "k1", type := ChangeType.ADDED },
   { name := "apple", version := "v2", key := "k2", type := ChangeType.ADDED },
   { name := "zebra", version := "v1", key := "k3", type := ChangeType.ADDED }]

/-! ## Helper lemmas: lawfulness of the sort comparison -/

/-- Swapping the arguments of a comparison swaps the verdict. -/
def cmpSwapOK {α : Type} (c : α → α → Ordering) : Prop :=
  ∀ a b, c b a = (c a b).swap

/-- Arguments the comparison finds equal compare identically against
everything. -/
def cmpCongrOK {α : Type} (c : α → α → Ordering) : Prop :=
  ∀ a b, c a b = Ordering.eq → ∀ d, c a d = c b d

/-- Strict verdicts are transitive. -/
def cmpTransOK {α : Type} (c : α → α → Ordering) : Prop :=
  ∀ a b d, c a b = Ordering.lt → c b d = Ordering.lt → c a d = Ordering.lt

theorem charListCmp_swap : cmpSwapOK charListCmp := by
  intro a b
  induction a generalizing b with
  | nil => cases b <;> rfl
  | cons x xs ih =>
    cases b with
    | nil => rfl
    | cons y ys =>
      simp only [charListCmp]
      rcases lt_trichotomy x y with h | h | h
      · simp [h, lt_asymm h, Ordering.swap]
      · subst h
        simp only [lt_irrefl, if_false]
        exact ih ys
      · simp [h, lt_asymm h, Ordering.swap]

theorem charListCmp_eq : ∀ a b, charListCmp a b = Ordering.eq → a = b := by
  intro a
  induction a with
  | nil =>
    intro b h
    cases b with
    | nil => rfl
    | cons y ys => simp [charListCmp] at h
  | cons x xs ih =>
    intro b h
    cases b with
    | nil => simp [charListCmp] at h
    | cons y ys =>
      simp only [charListCmp] at h
      rcases lt_trichotomy x y with h1 | h1 | h1
      · simp [h1] at h
      · subst h1
        simp only [lt_irrefl, if_false] at h
        rw [ih ys h]
      · simp [h1, lt_asymm h1] at h

theorem charListCmp_trans : cmpTransOK charListCmp := by
  intro a b d hab hbd
  induction a generalizing b d with
  | nil =>
    cases b with
    | nil => exact hbd
    | cons y ys =>
      cases d with
      | nil => simp [charListCmp] at hbd
      | cons z zs => rfl
  | cons x xs ih =>
    cases b with
    | nil => simp [charListCmp] at hab
    | cons y ys =>
      cases d with
      | nil => simp [charListCmp] at hbd
      | cons z zs =>
        simp only [charListCmp] at hab hbd ⊢
        rcases lt_trichotomy x y with h1 | h1 | h1
        · rcases lt_trichotomy y z with h2 | h2 | h2
          · simp [lt_trans h1 h2]
          · subst h2; simp [h1]
          · simp [h2, lt_asymm h2] at hbd
        · subst h1
          rcases lt_trichotomy x z with h2 | h2 | h2
          · simp [h2]
          · subst h2
            simp only [lt_irrefl, if_false] at hab hbd ⊢
            exact ih _ _ hab hbd
          · simp only [lt_irrefl, if_false] at hab
            simp [h2, lt_asymm h2] at hbd
        · simp [h1, lt_asymm h1] at hab

theorem thenCmp_swap {α : Type} (c1 c2 : α → α → Ordering)
    (h1 : cmpSwapOK c1) (h2 : cmpSwapOK c2) :
    cmpSwapOK (fun a b => (c1 a b).then (c2 a b)) := by
  intro a b
  simp only [h1 a b, h2 a b]
  cases c1 a b <;> cases c2 a b <;> rfl

theorem thenCmp_congr {α : Type} (c1 c2 : α → α → Ordering)
    (h1 : cmpCongrOK c1) (h2 : cmpCongrOK c2) :
    cmpCongrOK (fun a b => (c1 a b).then (c2 a b)) := by
  intro a b hab d
  simp only at hab ⊢
  have e1 : c1 a b = Ordering.eq := by
    cases hc : c1 a b <;> rw [hc] at hab <;> first | rfl | simp [Ordering.then] at hab
  have e2 : c2 a b = Ordering.eq := by
    rw [e1] at hab; simpa [Ordering.then] using hab
  rw [h1 a b e1 d, h2 a b e2 d]

theorem thenCmp_trans {α : Type} (c1 c2 : α → α → Ordering)
    (s1 : cmpSwapOK c1) (g1 : cmpCongrOK c1) (t1 : cmpTransOK c1) (t2 : cmpTransOK c2) :
    cmpTransOK (fun a b => (c1 a b).then (c2 a b)) := by
  intro a b d hab hbd
  simp only at hab hbd ⊢
  have congr_right : ∀ p q, c1 p q = Ordering.eq → ∀ r, c1 r p = c1 r q := by
    intro p q hpq r
    rw [s1 p r, s1 q r, g1 p q hpq r]
  cases h1ab : c1 a b with
  | lt =>
    cases h1bd : c1 b d with
    | lt => rw [t1 a b d h1ab h1bd]; rfl
    | eq =>
      have had : c1 a d = Ordering.lt := by rw [congr_right b d h1bd a] at h1ab; exact h1ab
      rw [had]; rfl
    | gt => rw [h1bd] at hbd; simp [Ordering.then] at hbd
  | eq =>
    cases h1bd : c1 b d with
    | lt =>
      have had : c1 a d = Ordering.lt := by rw [g1 a b h1ab d]; exact h1bd
      rw [had]; rfl
    | eq =>
      have h1ad : c1 a d = Ordering.eq := by rw [g1 a b h1ab d, h1bd]
      rw [h1ad]
      rw [h1ab] at hab; rw [h1bd] at hbd
      simp only [Ordering.then] at hab hbd ⊢
      exact t2 a b d hab hbd
    | gt => rw [h1bd] at hbd; simp [Ordering.then] at hbd
  | gt => rw [h1ab] at hab; simp [Ordering.then] at hab

theorem pullback_swap {α β : Type} (f : α → β) (c : β → β → Ordering)
    (h : cmpSwapOK c) : cmpSwapOK (fun a b => c (f a) (f b)) :=
  fun a b => h (f a) (f b)

theorem pullback_congr {α β : Type} (f : α → β) (c : β → β → Ordering)
    (he : ∀ x y, c x y = Ordering.eq → x = y) :
    cmpCongrOK (fun a b => c (f a) (f b)) := by
  intro a b hab d
  simp only at hab ⊢
  rw [he (f a) (f b) hab]

theorem pullback_trans {α β : Type} (f : α → β) (c : β → β → Ordering)
    (h : cmpTransOK c) : cmpTransOK (fun a b => c (f a) (f b)) :=
  fun a b d hab hbd => h (f a) (f b) (f d) hab hbd

theorem natCmp_swap : cmpSwapOK natCmp := by
  intro a b
  unfold natCmp
  split_ifs <;> first | rfl | omega

theorem natCmp_eq : ∀ a b : Nat, natCmp a b = Ordering.eq → a = b := by
  intro a b h
  unfold natCmp at h
  split_ifs at h
  omega

theorem natCmp_trans : cmpTransOK natCmp := by
  intro a b d hab hbd
  unfold natCmp at hab hbd ⊢
  split_ifs at hab hbd ⊢ <;> first | rfl | omega

theorem strCmp_eq : ∀ a b : String, strCmp a b = Ordering.eq → a = b := by
  intro a b h
  cases a; cases b
  simp only [strCmp] at h
  rw [charListCmp_eq _ _ h]

theorem recordCmp_swap : cmpSwapOK recordCmp := by
  have hs : cmpSwapOK strCmp := fun a b => charListCmp_swap a.data b.data
  exact thenCmp_swap _ _ (pullback_swap (fun r : ChangeRecord => r.name) strCmp hs)
    (thenCmp_swap _ _ (pullback_swap (fun r : ChangeRecord => r.version) strCmp hs)
      (thenCmp_swap _ _ (pullback_swap (fun r : ChangeRecord => r.type.val) natCmp natCmp_swap)
        (pullback_swap (fun r : ChangeRecord => r.key) strCmp hs)))

theorem recordCmp_congr : cmpCongrOK recordCmp := by
  exact thenCmp_congr _ _ (pullback_congr (fun r : ChangeRecord => r.name) strCmp strCmp_eq)
    (thenCmp_congr _ _ (pullback_congr (fun r : ChangeRecord => r.version) strCmp strCmp_eq)
      (thenCmp_congr _ _ (pullback_congr (fun r : ChangeRecord => r.type.val) natCmp natCmp_eq)
        (pullback_congr (fun r : ChangeRecord => r.key) strCmp strCmp_eq)))

theorem recordCmp_trans : cmpTransOK recordCmp := by
  have hs : cmpSwapOK strCmp := fun a b => charListCmp_swap a.data b.data
  have ht : cmpTransOK strCmp := fun a b d => charListCmp_trans a.data b.data d.data
  exact thenCmp_trans _ _ (pullback_swap (fun r : ChangeRecord => r.name) strCmp hs)
    (pullback_congr (fun r : ChangeRecord => r.name) strCmp strCmp_eq)
    (pullback_trans (fun r : ChangeRecord => r.name) strCmp ht)
    (thenCmp_trans _ _ (pullback_swap (fun r : ChangeRecord => r.version) strCmp hs)
      (pullback_congr (fun r : ChangeRecord => r.version) strCmp strCmp_eq)
      (pullback_trans (fun r : ChangeRecord => r.version) strCmp ht)
      (thenCmp_trans _ _ (pullback_swap (fun r : ChangeRecord => r.type.val) natCmp natCmp_swap)
        (pullback_congr (fun r : ChangeRecord => r.type.val) natCmp natCmp_eq)
        (pullback_trans (fun r : ChangeRecord => r.type.val) natCmp natCmp_trans)
        (pullback_trans (fun r : ChangeRecord => r.key) strCmp ht)))

instance : IsTotal ChangeRecord recordLe := by
  constructor
  intro a b
  unfold recordLe
  by_cases h : recordCmp a b = Ordering.gt
  · right
    rw [recordCmp_swap a b, h]
    simp [Ordering.swap]
  · left; exact h

instance : IsTrans ChangeRecord recordLe := by
  constructor
  intro a b d hab hbd
  unfold recordLe at hab hbd ⊢
  intro had
  cases h1 : recordCmp a b with
  | gt => exact hab h1
  | eq =>
    rw [recordCmp_congr a b h1 d] at had
    exact hbd had
  | lt =>
    cases h2 : recordCmp b d with
    | gt => exact hbd h2
    | eq =>
      have : recordCmp a d = Ordering.lt := by
        have hr : ∀ r, recordCmp r b = recordCmp r d := by
          intro r
          rw [recordCmp_swap b r, recordCmp_swap d r, recordCmp_congr b d h2 r]
        rw [← hr a]; exact h1
      rw [this] at had; cases had
    | lt =>
      rw [recordCmp_trans a b d h1 h2] at had; cases had

/-! ## Helper lemmas: inversion of the per-file diff -/

theorem diffRows_of_ok {c n : Option JObj} {f : String} {rows : List ChangeRecord}
    (h : getDiscoveryDifferences c n f = Except.ok rows) :
    diffRows c n f = Except.ok rows := by
  cases c <;> cases n
  · simp [getDiscoveryDifferences] at h
  all_goals exact h

theorem mem_diffRows {c n : Option JObj} {f : String} {rows : List ChangeRecord}
    (hok : diffRows c n f = Except.ok rows) {r : ChangeRecord} (hr : r ∈ rows) :
    r.type = classify (cellAt c r.key) (cellAt n r.key) ∧
    ignoredKey r.key = false ∧
    cellNe (cellAt c r.key) (cellAt n r.key) = true := by
  unfold diffRows at hok
  by_cases hp : (splitDots f).length < 2
  · rw [if_pos hp] at hok
    exact absurd hok (by simp)
  · rw [if_neg hp] at hok
    injection hok with h
    subst h
    rw [List.mem_filter] at hr
    obtain ⟨hr1, hig⟩ := hr
    rw [List.mem_filterMap] at hr1
    obtain ⟨k, _, hfk⟩ := hr1
    unfold diffRow at hfk
    by_cases hne : cellNe (cellAt c k) (cellAt n k) = true
    · rw [if_pos hne] at hfk
      injection hfk with hfk
      subst hfk
      refine ⟨rfl, ?_, hne⟩
      simpa using hig
    · rw [if_neg hne] at hfk
      exact absurd hfk (by simp)

/-! ## Claim theorems -/

/-- C10: if a filename exists in neither the current nor the new artifacts
directory (both sides absent), the per-file comparison raises an error —
`pd.concat([None, None], ...)` raises `ValueError` — rather than returning
an empty record sequence; only one-sided absence is the normal
all-keys-absent state. -/
theorem bothMissing_is_error (filename : String) :
    getDiscoveryDifferences none none filename = Except.error "All objects passed were None" :=
  rfl

/-- C6: a file missing on exactly one side is not an error: with the
current side absent and the new side `{"x": 1}`, the comparison completes
normally, every key of the new document is classified `Added`, and the
family's `IsBreaking` aggregate is `false`. -/
theorem missingCurrent_allAdded :
    getDiscoveryDifferences none (some docX1) "foo.v1.json" =
      Except.ok [{ name := "foo", version := "v1", key := "x", type := ChangeType.ADDED }] ∧
    isBreakingAggregate [{ name := "foo", version := "v1", key := "x", type := ChangeType.ADDED }]
      "foo" = false :=
  ⟨rfl, rfl⟩

/-- C8 (evaluation at the failing input): constructing the comparison with
an empty — but non-`None` — file list does NOT raise: `__init__` only
checks `file_list is None`, so `ChangeSummary(..., [])` succeeds, even
though the exception `FileListCannotBeEmpty` is documented as "Raised when
a file_list is empty".  Only `None` triggers the error. -/
theorem emptyFileList_not_rejected :
    changeSummaryInit true true (some []) = Except.ok [] ∧
    changeSummaryInit true true none = Except.error "file_list should not be empty" :=
  ⟨rfl, rfl⟩

/-- C4 (evaluation at the failing input): diffing a document against
itself is NOT always empty.  For `{"k": 1}` the self-diff is empty, but
for `{"k": null}` — a null-valued document the claim explicitly includes —
`pd.json_normalize` keeps the column `k` holding `None` on both sides,
`vec_compare` makes `None != None` come out `True`, the row passes the
filter, and `isnull(NewValue)` classifies it `DELETED`: a spurious no-op
record.  The source's own comment at src/changesummary.py:101,
`#todo add check if both are none`, acknowledges the missing exclusion
the spec demands. -/
theorem diff_self_null_spurious :
    getDiscoveryDifferences (some docKNull) (some docKNull) "foo.v1.json" =
      Except.ok [{ name := "foo", version := "v1", key := "k", type := ChangeType.DELETED }] ∧
    getDiscoveryDifferences (some docK1) (some docK1) "foo.v1.json" = Except.ok [] :=
  ⟨rfl, rfl⟩

/-- C9 counterexample: the flattener does NOT give array elements their
own `<parentPath>.<index>` key-paths — `pd.json_normalize` leaves lists
whole — so `{"a": [1, 2]}` flattens to the single leaf `a` holding the
array, and no key `a.0` exists. -/
theorem flatten_array_counterexample :
    flatten docArr =
      [("a", Cell.entry (JValue.arr (JArr.cons (JValue.num 1) (JArr.cons (JValue.num 2) JArr.nil))))] ∧
    ¬("a.0" ∈ flatKeys (flatten docArr)) :=
  ⟨rfl, by decide⟩

mutual
theorem flattenMember_spec : ∀ segs k v,
    flattenMember segs k v =
      (specLeavesVal (segs ++ [k]) v).map (fun sv => (dotJoinAux sv.1, Cell.entry sv.2))
  | segs, k, JValue.obj g => by
    simp only [flattenMember, specLeavesVal]
    exact flattenObjAux_spec (segs ++ [k]) g
  | _, _, JValue.null => rfl
  | _, _, JValue.bool b => rfl
  | _, _, JValue.num n => rfl
  | _, _, JValue.str s => rfl
  | _, _, JValue.arr xs => rfl
theorem flattenObjAux_spec : ∀ segs g,
    flattenObjAux segs g =
      (specLeavesObj segs g).map (fun sv => (dotJoinAux sv.1, Cell.entry sv.2))
  | _, JObj.nil => rfl
  | segs, JObj.cons k v rest => by
    simp only [flattenObjAux, specLeavesObj, List.map_append]
    rw [flattenMember_spec segs k v, flattenObjAux_spec segs rest]
end

/-- C9 (amended): the flattener records every leaf — where a leaf is any
non-object value, arrays included — exactly once, under the dotted
key-path accumulated from the enclosing object member keys.  Object
members contribute `<parentPath>.<memberKey>` path segments; array
elements contribute no segments because arrays are themselves leaves. -/
theorem flatten_maps_leaves (doc : JObj) :
    flatten doc = (specLeavesObj [] doc).map (fun sv => (dotJoinAux sv.1, Cell.entry sv.2)) :=
  flattenObjAux_spec [] doc

/-- C1 counterexample: with current `{"k": null}` and new `{"k": 1}` the
key `k` is present in BOTH documents with differing values, so the claim
("Changed iff present in both with differing values") demands `CHANGED`;
the code classifies the record `ADDED`, because `pandas.isnull` treats the
JSON `null` in the current document like an absent key. -/
theorem classification_not_by_presence :
    getDiscoveryDifferences (some docKNull) (some docK1) "foo.v1.json" =
      Except.ok [{ name := "foo", version := "v1", key := "k", type := ChangeType.ADDED }] ∧
    ChangeType.ADDED ≠ ChangeType.CHANGED :=
  ⟨rfl, by decide⟩

/-- C1 (amended): for every emitted ChangeRecord the classification is
determined solely by the NULLNESS (absent key, missing file, or JSON
`null` value — all alike under `pandas.isnull`) of each side:
`Deleted` iff the new side is null; `Added` iff the new side is non-null
and the current side is null; `Changed` iff both sides are non-null (the
record then existing because the values differ); exactly one of the three
holds and `Unknown` is never emitted. -/
theorem classification_by_nullness
    (currentDoc newDoc : Option JObj) (filename : String) (rows : List ChangeRecord)
    (hok : getDiscoveryDifferences currentDoc newDoc filename = Except.ok rows)
    (r : ChangeRecord) (hr : r ∈ rows) :
    (r.type = ChangeType.DELETED ↔ cellIsNull (cellAt newDoc r.key) = true) ∧
    (r.type = ChangeType.ADDED ↔
      (cellIsNull (cellAt newDoc r.key) = false ∧ cellIsNull (cellAt currentDoc r.key) = true)) ∧
    (r.type = ChangeType.CHANGED ↔
      (cellIsNull (cellAt newDoc r.key) = false ∧ cellIsNull (cellAt currentDoc r.key) = false)) ∧
    r.type ≠ ChangeType.UNKNOWN := by
  obtain ⟨ht, -, -⟩ := mem_diffRows (diffRows_of_ok hok) hr
  rw [ht]
  cases hn : cellIsNull (cellAt newDoc r.key) <;>
    cases hc : cellIsNull (cellAt currentDoc r.key) <;>
      simp [classify, hn, hc]

/-- C1 witness: the amended classification instantiated at the
`{"k": null}` vs `{"k": 1}` comparison, whose single record is `ADDED`. -/
theorem classification_by_nullness_witness :
    (ChangeType.ADDED = ChangeType.DELETED ↔ cellIsNull (cellAt (some docK1) "k") = true) ∧
    (ChangeType.ADDED = ChangeType.ADDED ↔
      (cellIsNull (cellAt (some docK1) "k") = false ∧
        cellIsNull (cellAt (some docKNull) "k") = true)) ∧
    (ChangeType.ADDED = ChangeType.CHANGED ↔
      (cellIsNull (cellAt (some docK1) "k") = false ∧
        cellIsNull (cellAt (some docKNull) "k") = false)) ∧
    ChangeType.ADDED ≠ ChangeType.UNKNOWN :=
  classification_by_nullness (some docKNull) (some docK1) "foo.v1.json" _ rfl
    { name := "foo", version := "v1", key := "k", type := ChangeType.ADDED }
    (List.mem_singleton.mpr rfl)

/-- C5: the ignore filter drops every record whose key-path contains — as
a case-insensitive substring — an entry of the effective ignore list,
which (because of the missing-comma string-concatenation defect merging
`'title' 'url'`) is description, documentation, enum, etag, revision,
titleurl, rootUrl; a key-path containing only `title` or only `url` does
not match the merged `titleurl` entry and is not excluded. -/
theorem ignored_keys_never_emitted
    (currentDoc newDoc : Option JObj) (filename : String) (rows : List ChangeRecord)
    (hok : getDiscoveryDifferences currentDoc newDoc filename = Except.ok rows) :
    (∀ r ∈ rows, ignoredKey r.key = false) ∧
    keysToIgnore = ["description", "documentation", "enum", "etag", "revision", "titleurl",
      "rootUrl"] ∧
    ignoredKey "title" = false ∧ ignoredKey "url" = false := by
  refine ⟨?_, by decide, by decide, by decide⟩
  intro r hr
  exact (mem_diffRows (diffRows_of_ok hok) hr).2.1

/-- C5 witness: diffing `{"etag": 1, "title": 1}` against
`{"etag": 2, "title": 2}` emits only the `title` record — the `etag`
difference is suppressed, `title` alone does not match the merged
`titleurl` entry. -/
theorem ignored_keys_never_emitted_witness :
    (∀ r ∈ [recTitleChanged], ignoredKey r.key = false) ∧
    keysToIgnore = ["description", "documentation", "enum", "etag", "revision", "titleurl",
      "rootUrl"] ∧
    ignoredKey "title" = false ∧ ignoredKey "url" = false :=
  ignored_keys_never_emitted (some docIgnoreCur) (some docIgnoreNew) "foo.v1.json" _ rfl

/-- C2: the record sequence produced by the diff pass — the concatenation
of all per-file diffs, sorted by `sort_values(by=['Name', 'Version',
'ChangeType', 'Key'], ascending=True)` — is sorted ascending under
`recordLe`, the lexicographic order on (Family, Version, ChangeType, Key)
with code-point string ordering and numeric `IntEnum` ordering (so records
of one family+version+type are contiguous and Deleted(1) precedes Added(2)
precedes Changed(3)). -/
theorem detect_output_sorted (loadCur loadNew : String → Option JObj) (files : List String)
    (rows : List ChangeRecord)
    (hok : detectDiscoveryChanges loadCur loadNew files = Except.ok rows) :
    rows.Sorted recordLe := by
  unfold detectDiscoveryChanges at hok
  cases hm : files.mapM (fun f => getDiscoveryDifferences (loadCur f) (loadNew f) f) with
  | error e =>
    rw [hm] at hok
    exact absurd hok (by simp)
  | ok rss =>
    rw [hm] at hok
    injection hok with h
    subst h
    exact List.sorted_insertionSort recordLe _

/-- C2 witness: two files given in anti-sorted family order come out
sorted (`api` before `zoo`). -/
theorem detect_output_sorted_witness :
    List.Sorted recordLe
      [{ name := "api", version := "v1", key := "x", type := ChangeType.ADDED },
       { name := "zoo", version := "v1", key := "x", type := ChangeType.ADDED }] :=
  detect_output_sorted (fun _ => none) (fun _ => some docX1) ["zoo.v1.json", "api.v1.json"] _ rfl

/-- C3: for a family the summary line is byte-for-byte
`<family>(<commitType>)<bang>: update the api\n`, where the commit type is
`feat` exactly when some record of the family is `Added` or `Deleted`
(else `fix`) and the bang is `!` exactly when some record of the family is
`Deleted`. -/
theorem summary_line_format (rows : List ChangeRecord) (family : String)
    (_h : ∃ r ∈ rows, r.name = family) :
    familySummary rows family =
      family ++ "(" ++
        (if ∃ r ∈ rows, r.name = family ∧ (r.type = ChangeType.ADDED ∨ r.type = ChangeType.DELETED)
         then "feat" else "fix") ++ ")" ++
        (if ∃ r ∈ rows, r.name = family ∧ r.type = ChangeType.DELETED then "!" else "") ++
        ": update the api\n" := by
  have hf : isFeatureAggregate rows family = true ↔
      ∃ r ∈ rows, r.name = family ∧ (r.type = ChangeType.ADDED ∨ r.type = ChangeType.DELETED) := by
    simp only [isFeatureAggregate, List.any_eq_true, List.mem_filter, beq_iff_eq,
      Bool.or_eq_true]
    constructor
    · rintro ⟨r, ⟨hm, hn⟩, ht⟩
      exact ⟨r, hm, hn, ht.symm⟩
    · rintro ⟨r, hm, hn, ht⟩
      exact ⟨r, ⟨hm, hn⟩, ht.symm⟩
  have hb : isBreakingAggregate rows family = true ↔
      ∃ r ∈ rows, r.name = family ∧ r.type = ChangeType.DELETED := by
    simp only [isBreakingAggregate, List.any_eq_true, List.mem_filter, beq_iff_eq]
    constructor
    · rintro ⟨r, ⟨hm, hn⟩, ht⟩
      exact ⟨r, hm, hn, ht⟩
    · rintro ⟨r, hm, hn, ht⟩
      exact ⟨r, ⟨hm, hn⟩, ht⟩
  have e1 : (if isFeatureAggregate rows family then "feat" else "fix") =
      (if ∃ r ∈ rows, r.name = family ∧ (r.type = ChangeType.ADDED ∨ r.type = ChangeType.DELETED)
       then "feat" else "fix") := by
    by_cases h1 : ∃ r ∈ rows, r.name = family ∧ (r.type = ChangeType.ADDED ∨ r.type = ChangeType.DELETED)
    · simp [hf.mpr h1, h1]
    · have hx : isFeatureAggregate rows family = false := by
        cases hy : isFeatureAggregate rows family
        · rfl
        · exact absurd (hf.mp hy) h1
      simp [hx, h1]
  have e2 : (if isBreakingAggregate rows family then "!" else "") =
      (if ∃ r ∈ rows, r.name = family ∧ r.type = ChangeType.DELETED then "!" else "") := by
    by_cases h1 : ∃ r ∈ rows, r.name = family ∧ r.type = ChangeType.DELETED
    · simp [hb.mpr h1, h1]
    · have hx : isBreakingAggregate rows family = false := by
        cases hy : isBreakingAggregate rows family
        · rfl
        · exact absurd (hb.mp hy) h1
      simp [hx, h1]
  unfold familySummary buildSummaryMessage
  rw [e1, e2]

/-- C3 witness: a family with one deleted record gets
`foo(feat)!: update the api\n`. -/
theorem summary_line_format_witness :
    familySummary [recBDeleted] "foo" =
      "foo" ++ "(" ++
        (if ∃ r ∈ [recBDeleted], r.name = "foo" ∧
            (r.type = ChangeType.ADDED ∨ r.type = ChangeType.DELETED)
         then "feat" else "fix") ++ ")" ++
        (if ∃ r ∈ [recBDeleted], r.name = "foo" ∧ r.type = ChangeType.DELETED then "!" else "") ++
        ": update the api\n" :=
  summary_line_format [recBDeleted] "foo" ⟨recBDeleted, List.mem_singleton.mpr rfl, rfl⟩

/-- C7 (evaluation at the failing input): the verbose writer does create
one `<family>.verbose` file per family, but the content promised by the
claim is not written for every family.  With the two sorted single-version
records of `rowsTwoFamilies`, the first family's file (`apple.verbose`)
does receive its summary line and section, while the file of the family
that sorts last (`zebra.verbose`) stays EMPTY — the loop never flushes the
final buffer.  And with `rowsMultiVersion`, where `apple` has versions v1
and v2, reopening `apple.verbose` with mode "w" truncates it, so only the
v2 section survives — the v1 section is lost. -/
theorem verbose_files_incomplete :
    getFile (writeVerbose (familySummary rowsTwoFamilies) rowsTwoFamilies) "apple.verbose" =
      some ("apple(feat): update the api\n" ++ "\n\n#### apple:v1\n\n" ++
        "\nThe following keys were added:\n" ++ "- k1\n") ∧
    getFile (writeVerbose (familySummary rowsTwoFamilies) rowsTwoFamilies) "zebra.verbose" =
      some "" ∧
    getFile (writeVerbose (familySummary rowsMultiVersion) rowsMultiVersion) "apple.verbose" =
      some ("apple(feat): update the api\n" ++ "\n\n#### apple:v2\n\n" ++
        "\nThe following keys were added:\n" ++ "- k2\n") :=
  ⟨by decide, by decide, by decide⟩
